import Mathlib

/-!
Verification development for the aktualizr device-side Uptane client.

The definitions below are shallow embeddings of the functions in
`src/libaktualizr/primary/sotauptaneclient.cc` and
`src/libaktualizr/package_manager/ostreemanager.cc`.  External collaborators
(storage, HTTP fetcher, cryptographic verification, the OSTree system calls)
are passed in as explicit oracle arguments, mirroring the interfaces the code
calls; the control flow of the embedded functions follows the C++ source
line by line.
-/

namespace Aktualizr

/-- A firmware target as used by the client.  Mirrors the fields of
`Uptane::Target` that the embedded code reads: `filename()`, `ecus()`
(a map from ECU serial to hardware identifier, iterated in `std::map`
key order, embedded as an ordered association list), `sha256Hash()`,
`length()` and the custom `type` string (`IsOstree()` tests it
against "OSTREE"). -/
structure Target where
  filename : String
  ecus : List (String × String)
  sha256 : String
  length : Nat
  ttype : String
deriving DecidableEq, Repr

/-- Modelled from the spec: `Uptane::Target::IsOstree` is declared outside the
provided sources; the spec's data model gives `custom.type ∈ {OSTREE, binary}`
and the OSTree manager treats a target as OSTree exactly when its type is
"OSTREE". -/
def Target.IsOstree (t : Target) : Bool :=
  t.ttype == "OSTREE"

/-- Outcome of the inner ECU loop of `SotaUptaneClient::getNewTargets`
(sotauptaneclient.cc:570-597) for one director target:
`abortScan` is the `return false` on a hardware-id mismatch,
`skipScan` is the `is_new = false; break` on an unknown ECU serial or an
unknown installed image, and `doneScan b` is normal loop exit with the
final value `b` of `is_new`. -/
inductive EcuScan where
  | abortScan
  | skipScan
  | doneScan (is_new : Bool)
deriving DecidableEq, Repr

/-- The inner loop of `SotaUptaneClient::getNewTargets`
(sotauptaneclient.cc:570-597).  `hw_ids` is the client's serial-to-hardware-id
map, `installed_images` the serial-to-installed-filename map populated by
`AssembleManifest`, `fname` the director target's filename, and the `Bool`
argument is the running value of `is_new` (initialised to `true` at line 569,
mirroring `bool is_new = true;`). -/
def scanEcus (hw_ids installed_images : List (String × String)) (fname : String) :
    Bool → List (String × String) → EcuScan
  | is_new, [] => .doneScan is_new
  | is_new, (ecu_serial, hw_id) :: rest =>
    match hw_ids.lookup ecu_serial with
    | none => .skipScan
    | some local_hw =>
      if local_hw ≠ hw_id then .abortScan
      else
        match installed_images.lookup ecu_serial with
        | none => .skipScan
        | some img =>
          if img = fname then scanEcus hw_ids installed_images fname is_new rest
          else scanEcus hw_ids installed_images fname true rest

/-- `SotaUptaneClient::getNewTargets` (sotauptaneclient.cc:566-603).
The C++ function reports failure through its `bool` return value and
delivers the selected targets through the out-parameter, which every caller
reads only on success; the embedding folds the two into an `Option`:
`none` is `return false` (hardware-id mismatch abort), `some l` is
`return true` with `l` the pushed targets in director order. -/
def getNewTargets (hw_ids installed_images : List (String × String)) :
    List Target → Option (List Target)
  | [] => some []
  | t :: rest =>
    match scanEcus hw_ids installed_images t.filename true t.ecus with
    | .abortScan => none
    | .skipScan => getNewTargets hw_ids installed_images rest
    | .doneScan is_new =>
      match getNewTargets hw_ids installed_images rest with
      | none => none
      | some l => some (if is_new then t :: l else l)

/-- The per-target keep decision of `getNewTargets`: a target is pushed onto
`new_targets` exactly when its ECU scan runs to completion with `is_new`
true. -/
def targetKept (hw_ids installed_images : List (String × String)) (t : Target) : Bool :=
  match scanEcus hw_ids installed_images t.filename true t.ecus with
  | .doneScan b => b
  | _ => false

/-- A role metadata document as the client handles it before full parsing:
`Uptane::extractVersionUntrusted` reads the version field out of the raw
bytes; everything else stays opaque to the embedded control flow. -/
structure MetaDoc where
  version : Int
  body : String
deriving DecidableEq, Repr

/-- Exit points of the metadata-update functions.  Each constructor names one
`return false` site of updateDirectorMeta / updateImagesMeta /
checkDirectorMetaOffline / checkImagesMetaOffline: `expiredMetadata r s`
corresponds to `last_exception = Uptane::ExpiredMetadata(r, s)`,
`versionRollback` to the bare `return false` when the stored version exceeds
the fetched one, `fetchFail` and `loadFail` to fetcher and storage failures
(which set no exception), and the verify failures to
`last_exception = ..getLastException()`. -/
inductive ClientErr where
  | fetchFail
  | loadFail
  | initRootFail
  | verifyRootFail
  | verifyRoleFail (role : String)
  | versionRollback (role : String)
  | expiredMetadata (repo role : String)
deriving DecidableEq, Repr

/-- Trace of the observable calls the metadata-update functions make, in
order: fetches, `initRoot`/`verifyRoot`, root stores and
`clearNonRootMeta`, non-root loads, the per-role verification
(`verifyTimestamp`/`verifySnapshot`/`verifyTargets`, tagged by role name)
and non-root stores. -/
inductive Act where
  | fetchRootAct (v : Int)
  | fetchLatestAct (role : String)
  | initRootAct
  | verifyRootAct (v : Int)
  | storeRootAct (v : Int)
  | clearNonRootAct
  | loadRoleAct (role : String)
  | verifyRoleAct (role : String)
  | storeRoleAct (role : String)
deriving DecidableEq, Repr

/-- The environment one repository's update runs against: the storage
contents at entry (`storedLatestRoot`, `storedRole`), the fetcher
(`fetchRoot` for `fetchRole(Root, version)`, `fetchLatest` for
`fetchLatestRole`), and the verification outcomes of the `RepositoryCommon`
role state machine, which lives outside the provided sources and is
therefore abstract: `initRootOk`/`verifyRootOk` for the Root chain
(`verifyRootOk cur d` is verification of candidate `d` against current root
version `cur`), `rootExpired` as a function of the current root version, and
`verifyRoleOk cur role d` / `roleExpired role d` for the non-root roles. -/
structure Env where
  storedLatestRoot : Option MetaDoc
  storedRole : String → Option MetaDoc
  fetchRoot : Int → Option MetaDoc
  fetchLatest : String → Option MetaDoc
  initRootOk : MetaDoc → Bool
  verifyRootOk : Int → MetaDoc → Bool
  rootExpired : Int → Bool
  verifyRoleOk : Int → String → MetaDoc → Bool
  roleExpired : String → MetaDoc → Bool

/-- Result of one metadata-update run: the error (if any), the repository's
final root version, the final non-root storage contents, and the trace of
calls made. -/
structure UpdateOutcome where
  err : Option ClientErr
  rootVer : Int
  stored : String → Option MetaDoc
  acts : List Act

/-- The root-update loop of `SotaUptaneClient::updateDirectorMeta`
(sotauptaneclient.cc:229-241) and `updateImagesMeta`
(sotauptaneclient.cc:319-330): `for (version = local+1; version <= remote;
++version)` fetch the root at `version`, verify it against the current root,
store it and clear the repository's non-root metadata.  The fuel argument is
the iteration count `(remote - local).toNat`; `version` is the loop counter
and the `Int` after it the repository's current root version. -/
def rootWalk (env : Env) : Nat → Int → Int → (String → Option MetaDoc) → List Act →
    Option ClientErr × Int × (String → Option MetaDoc) × List Act
  | 0, _, rootVer, st, acts => (none, rootVer, st, acts)
  | n + 1, version, rootVer, st, acts =>
    match env.fetchRoot version with
    | none => (some .fetchFail, rootVer, st, acts ++ [.fetchRootAct version])
    | some d =>
      if env.verifyRootOk rootVer d then
        rootWalk env n (version + 1) d.version (fun _ => none)
          (acts ++ [.fetchRootAct version, .verifyRootAct version, .storeRootAct version,
            .clearNonRootAct])
      else
        (some .verifyRootFail, rootVer, st, acts ++ [.fetchRootAct version, .verifyRootAct version])

/-- One non-root role block of `updateDirectorMeta` (Targets,
sotauptaneclient.cc:249-281) and `updateImagesMeta` (Timestamp / Snapshot /
Targets, sotauptaneclient.cc:339-443); the four blocks are textually
identical up to the role and the strings of the `ExpiredMetadata` exception.
Fetch the latest role, read the stored copy's version (`-1` when absent),
verify, reject when the stored version exceeds the fetched one, store when
the fetched version is strictly newer, then check expiry. -/
def nonRootBlock (env : Env) (rootVer : Int) (role errRepo errRole : String)
    (st : String → Option MetaDoc) (acts : List Act) :
    Option ClientErr × (String → Option MetaDoc) × List Act :=
  match env.fetchLatest role with
  | none => (some .fetchFail, st, acts ++ [.fetchLatestAct role])
  | some fetched =>
    let remote := fetched.version
    let localv : Int :=
      match st role with
      | some stored => stored.version
      | none => -1
    let acts1 := acts ++ [Act.fetchLatestAct role, Act.loadRoleAct role]
    if ¬ env.verifyRoleOk rootVer role fetched then
      (some (.verifyRoleFail role), st, acts1 ++ [.verifyRoleAct role])
    else
      let acts2 := acts1 ++ [Act.verifyRoleAct role]
      if localv > remote then (some (.versionRollback role), st, acts2)
      else
        let st2 := if localv < remote then fun r => if r = role then some fetched else st r else st
        let acts3 := acts2 ++ (if localv < remote then [Act.storeRoleAct role] else [])
        if env.roleExpired role fetched then (some (.expiredMetadata errRepo errRole), st2, acts3)
        else (none, st2, acts3)

/-- Continuation of `updateDirectorMeta` after the initial root is loaded
(sotauptaneclient.cc:219-283): fetch the latest root, walk the root chain up
to its version, fail with `ExpiredMetadata("director", "root")` if the
resulting root is expired, then run the Targets block. -/
def udmAfterInit (env : Env) (rootVer0 : Int) (acts0 : List Act) : UpdateOutcome :=
  match env.fetchLatest "Root" with
  | none => ⟨some .fetchFail, rootVer0, env.storedRole, acts0 ++ [.fetchLatestAct "Root"]⟩
  | some latest =>
    match rootWalk env (latest.version - rootVer0).toNat (rootVer0 + 1) rootVer0 env.storedRole
        (acts0 ++ [Act.fetchLatestAct "Root"]) with
    | (some e, rv, st, acts) => ⟨some e, rv, st, acts⟩
    | (none, rv, st, acts) =>
      if env.rootExpired rv then ⟨some (.expiredMetadata "director" "root"), rv, st, acts⟩
      else
        match nonRootBlock env rv "Targets" "director" "targets" st acts with
        | (e, st2, acts2) => ⟨e, rv, st2, acts2⟩

/-- `SotaUptaneClient::updateDirectorMeta` (sotauptaneclient.cc:192-284).
Load the stored latest root (fetching and storing version 1 when storage has
none) and initialise the repository with it, then continue with the root
walk and the Targets block. -/
def updateDirectorMeta (env : Env) : UpdateOutcome :=
  match env.storedLatestRoot with
  | some r =>
    if env.initRootOk r then udmAfterInit env r.version [Act.initRootAct]
    else ⟨some .initRootFail, 0, env.storedRole, [Act.initRootAct]⟩
  | none =>
    match env.fetchRoot 1 with
    | none => ⟨some .fetchFail, 0, env.storedRole, [Act.fetchRootAct 1]⟩
    | some r =>
      if env.initRootOk r then
        udmAfterInit env r.version [Act.fetchRootAct 1, Act.initRootAct, Act.storeRootAct 1]
      else ⟨some .initRootFail, 0, env.storedRole, [Act.fetchRootAct 1, Act.initRootAct]⟩

/-- The Timestamp → Snapshot → Targets chain of `updateImagesMeta`
(sotauptaneclient.cc:338-444), each block run only when the previous one
succeeded. -/
def uimNonRootChain (env : Env) (rv : Int) (st : String → Option MetaDoc) (acts : List Act) :
    UpdateOutcome :=
  match nonRootBlock env rv "Timestamp" "repo" "timestamp" st acts with
  | (some e, st1, a1) => ⟨some e, rv, st1, a1⟩
  | (none, st1, a1) =>
    match nonRootBlock env rv "Snapshot" "repo" "snapshot" st1 a1 with
    | (some e, st2, a2) => ⟨some e, rv, st2, a2⟩
    | (none, st2, a2) =>
      match nonRootBlock env rv "Targets" "repo" "targets" st2 a2 with
      | (e, st3, a3) => ⟨e, rv, st3, a3⟩

/-- Continuation of `updateImagesMeta` after the initial root is loaded
(sotauptaneclient.cc:309-444): root walk, expiry check with the
`ExpiredMetadata("repo", "root")` exception, then the three non-root
blocks. -/
def uimAfterInit (env : Env) (rootVer0 : Int) (acts0 : List Act) : UpdateOutcome :=
  match env.fetchLatest "Root" with
  | none => ⟨some .fetchFail, rootVer0, env.storedRole, acts0 ++ [.fetchLatestAct "Root"]⟩
  | some latest =>
    match rootWalk env (latest.version - rootVer0).toNat (rootVer0 + 1) rootVer0 env.storedRole
        (acts0 ++ [Act.fetchLatestAct "Root"]) with
    | (some e, rv, st, acts) => ⟨some e, rv, st, acts⟩
    | (none, rv, st, acts) =>
      if env.rootExpired rv then ⟨some (.expiredMetadata "repo" "root"), rv, st, acts⟩
      else uimNonRootChain env rv st acts

/-- `SotaUptaneClient::updateImagesMeta` (sotauptaneclient.cc:286-445),
structured exactly like `updateDirectorMeta` but refreshing Timestamp,
Snapshot and Targets and using the images repository's exception strings. -/
def updateImagesMeta (env : Env) : UpdateOutcome :=
  match env.storedLatestRoot with
  | some r =>
    if env.initRootOk r then uimAfterInit env r.version [Act.initRootAct]
    else ⟨some .initRootFail, 0, env.storedRole, [Act.initRootAct]⟩
  | none =>
    match env.fetchRoot 1 with
    | none => ⟨some .fetchFail, 0, env.storedRole, [Act.fetchRootAct 1]⟩
    | some r =>
      if env.initRootOk r then
        uimAfterInit env r.version [Act.fetchRootAct 1, Act.initRootAct, Act.storeRootAct 1]
      else ⟨some .initRootFail, 0, env.storedRole, [Act.fetchRootAct 1, Act.initRootAct]⟩

/-- One role block of the offline checks (`checkDirectorMetaOffline`
Targets, sotauptaneclient.cc:467-484; `checkImagesMetaOffline` Timestamp /
Snapshot / Targets, sotauptaneclient.cc:509-562): load the stored role,
verify it against the current root, then check expiry.  The offline checks
never write storage. -/
def offlineRoleBlock (env : Env) (rootVer : Int) (role errRepo errRole : String)
    (acts : List Act) : Option ClientErr × List Act :=
  match env.storedRole role with
  | none => (some .loadFail, acts ++ [.loadRoleAct role])
  | some d =>
    let acts1 := acts ++ [Act.loadRoleAct role, Act.verifyRoleAct role]
    if ¬ env.verifyRoleOk rootVer role d then (some (.verifyRoleFail role), acts1)
    else if env.roleExpired role d then (some (.expiredMetadata errRepo errRole), acts1)
    else (none, acts1)

/-- `SotaUptaneClient::checkDirectorMetaOffline` (sotauptaneclient.cc:447-487):
initialise the repository from the stored latest root, fail with
`ExpiredMetadata("director", "root")` if it is expired, then verify the
stored Targets. -/
def checkDirectorMetaOffline (env : Env) : UpdateOutcome :=
  match env.storedLatestRoot with
  | none => ⟨some .loadFail, 0, env.storedRole, []⟩
  | some r =>
    if ¬ env.initRootOk r then ⟨some .initRootFail, 0, env.storedRole, [.initRootAct]⟩
    else if env.rootExpired r.version then
      ⟨some (.expiredMetadata "director" "root"), r.version, env.storedRole, [.initRootAct]⟩
    else
      match offlineRoleBlock env r.version "Targets" "director" "targets" [Act.initRootAct] with
      | (e, acts) => ⟨e, r.version, env.storedRole, acts⟩

/-- `SotaUptaneClient::checkImagesMetaOffline` (sotauptaneclient.cc:489-564):
initialise the repository from the stored latest root, fail with
`ExpiredMetadata("repo", "root")` if it is expired, then verify the stored
Timestamp, Snapshot and Targets in order. -/
def checkImagesMetaOffline (env : Env) : UpdateOutcome :=
  match env.storedLatestRoot with
  | none => ⟨some .loadFail, 0, env.storedRole, []⟩
  | some r =>
    if ¬ env.initRootOk r then ⟨some .initRootFail, 0, env.storedRole, [.initRootAct]⟩
    else if env.rootExpired r.version then
      ⟨some (.expiredMetadata "repo" "root"), r.version, env.storedRole, [.initRootAct]⟩
    else
      match offlineRoleBlock env r.version "Timestamp" "repo" "timestamp" [Act.initRootAct] with
      | (some e, a1) => ⟨some e, r.version, env.storedRole, a1⟩
      | (none, a1) =>
        match offlineRoleBlock env r.version "Snapshot" "repo" "snapshot" a1 with
        | (some e, a2) => ⟨some e, r.version, env.storedRole, a2⟩
        | (none, a2) =>
          match offlineRoleBlock env r.version "Targets" "repo" "targets" a2 with
          | (e, a3) => ⟨e, r.version, env.storedRole, a3⟩

/-- Number of `fetchRole(Root, version)` calls recorded in a trace: the
fetch-and-verify steps of the root walk. -/
def countRootFetches (acts : List Act) : Nat :=
  (acts.filter fun a =>
    match a with
    | .fetchRootAct _ => true
    | _ => false).length

/-- `data::UpdateResultCode`, the installation result codes used by
`SotaUptaneClient`. -/
inductive UpdateResultCode where
  | kOk
  | kAlreadyProcessed
  | kValidationFailed
  | kInstallFailed
  | kInProgress
deriving DecidableEq, Repr

/-- `data::InstallOutcome`: a result code paired with a result text. -/
structure InstallOutcome where
  first : UpdateResultCode
  second : String
deriving DecidableEq, Repr

/-- `data::OperationResult` as stored by `storeInstallationResult`. -/
structure OperationResult where
  id : String
  result_code : UpdateResultCode
  result_text : String
deriving DecidableEq, Repr

/-- `data::OperationResult::fromOutcome`. -/
def OperationResult.fromOutcome (id : String) (o : InstallOutcome) : OperationResult :=
  ⟨id, o.first, o.second⟩

/-- The `config.pacman.type` values of `PackageManagerFactory`. -/
inductive PackageManagerKind where
  | kOstree
  | kDebian
  | kNone
deriving DecidableEq, Repr

/-- `SotaUptaneClient::PackageInstallSetResult` (sotauptaneclient.cc:74-87).
`driver` is the active package manager's `install` (wrapped by
`PackageInstall`, whose exception handler folds a throw into a
`kInstallFailed` outcome, so the oracle covers it).  Returns the
`OperationResult` passed to `storeInstallationResult`, whether the driver's
install was invoked, and whether `saveInstalledVersion` was called. -/
def PackageInstallSetResult (pacmanType : PackageManagerKind)
    (driver : Target → InstallOutcome) (t : Target) : OperationResult × Bool × Bool :=
  if ¬ t.IsOstree ∧ pacmanType = .kOstree then
    (OperationResult.fromOutcome t.filename
      ⟨.kValidationFailed, "Cannot install a non-OSTree package on an OSTree system"⟩,
      false, false)
  else
    let result := OperationResult.fromOutcome t.filename (driver t)
    (result, true, result.result_code = .kOk)

/-- `data::ResultCode::Numeric`, the result codes used by
`OstreeManager`. -/
inductive ResultCode where
  | kOk
  | kAlreadyProcessed
  | kValidationFailed
  | kInstallFailed
  | kNeedCompletion
deriving DecidableEq, Repr

/-- `data::InstallationResult` as returned by `OstreeManager`. -/
structure InstallationResult where
  result_code : ResultCode
  description : String
deriving DecidableEq, Repr

/-- `OstreeManager::finalizeInstall` (ostreemanager.cc:255-275).
`rebootDetected` is `bootloader_->rebootDetected()` and `currentHash` the
value of `getCurrentHash()`.  Returns the installation result and whether
`bootloader_->rebootFlagClear()` was called. -/
def finalizeInstall (rebootDetected : Bool) (currentHash : String) (target : Target) :
    InstallationResult × Bool :=
  if ¬ rebootDetected then
    (⟨.kNeedCompletion, "Reboot is required for the pending update application"⟩, false)
  else
    let install_result : InstallationResult := ⟨.kOk, "Successfully booted on new version"⟩
    let install_result :=
      if currentHash ≠ target.sha256 then ⟨ResultCode.kInstallFailed, "Wrong version booted"⟩
      else install_result
    (install_result, true)

/-- `OstreeManager::getCurrent` (ostreemanager.cc:389-428).  `currentHash`
is `getCurrentHash()`, `storedCurrent` the result of
`loadPrimaryInstalledVersions` and `log` the installation log from
`loadPrimaryInstallationLog` in its stored order (the code scans it in
reverse, most recent entry first).  When nothing matches it synthesizes
`Uptane::Target("unknown", ecus = {}, hashes = {sha256: current_hash},
length 0, type "OSTREE")`. -/
def getCurrent (currentHash : String) (storedCurrent : Option Target) (log : List Target) :
    Target :=
  match storedCurrent with
  | some current_version =>
    if current_version.sha256 = currentHash then current_version
    else
      match log.reverse.find? (fun t => t.sha256 = currentHash) with
      | some t => t
      | none => ⟨"unknown", [], currentHash, 0, "OSTREE"⟩
  | none =>
    match log.reverse.find? (fun t => t.sha256 = currentHash) with
    | some t => t
    | none => ⟨"unknown", [], currentHash, 0, "OSTREE"⟩

/-- The events `SotaUptaneClient::runForever` and `downloadImages` write to
`events_channel` (payloads dropped; only the event kind matters here). -/
inductive Event where
  | SendDeviceDataComplete
  | PutManifestComplete
  | FetchMetaComplete
  | UpdateAvailable
  | UptaneTimestampUpdated
  | DownloadComplete
  | InstallComplete
  | ErrorEvent
deriving DecidableEq, Repr

/-- The terminal events of the spec's taxonomy: the `*Complete` events and
`Error`. -/
def isTerminal : Event → Bool
  | .SendDeviceDataComplete => true
  | .PutManifestComplete => true
  | .FetchMetaComplete => true
  | .DownloadComplete => true
  | .InstallComplete => true
  | .ErrorEvent => true
  | _ => false

/-- The commands `runForever` dispatches on (sotauptaneclient.cc:699-783);
`Shutdown` only exits the loop and emits nothing, so it is left out. -/
inductive Command where
  | SendDeviceData
  | PutManifest
  | FetchMeta
  | CheckUpdates
  | StartDownload (updates : List Target)
  | UptaneInstall (packages : List Target)
deriving DecidableEq, Repr

/-- Outcomes of the sub-operations a command invokes, none of which writes
to `events_channel` itself: `putManifestOk` for `putManifest`,
`updateMetaOk` for `updateMeta`, `offlineUpdates` for
`uptaneOfflineIteration` (`none` = failure, `some l` = success with
update list `l`), and `imagesHasTarget` for `images_repo.getTarget`
returning non-null in `downloadImages`. -/
structure EngineEnv where
  putManifestOk : Bool
  updateMetaOk : Bool
  offlineUpdates : Option (List Target)
  imagesHasTarget : Target → Bool

/-- `SotaUptaneClient::downloadImages` (sotauptaneclient.cc:605-635), as the
list of events it writes: `downloaded_targets` collects the targets found in
the images repository (`fetchVerifyTarget`'s result is ignored);
`DownloadComplete` is emitted only when every target was found,
`UptaneTimestampUpdated` when the list was empty, and nothing when only a
subset was found. -/
def downloadImages (imagesHasTarget : Target → Bool) (targets : List Target) : List Event :=
  let downloaded_targets := targets.filter imagesHasTarget
  if targets ≠ [] then
    if targets.length = downloaded_targets.length then [Event.DownloadComplete]
    else []
  else [Event.UptaneTimestampUpdated]

/-- One pass of the command loop of `SotaUptaneClient::runForever`
(sotauptaneclient.cc:699-783) on the non-throwing path, as the list of
events the command writes to `events_channel` in order.  `SendDeviceData`
ignores the result of `putManifest` and always emits its completion event;
`CheckUpdates` emits nothing when the offline iteration fails;
`UptaneInstall` always emits `InstallComplete`. -/
def processCommand (env : EngineEnv) : Command → List Event
  | .SendDeviceData => [.SendDeviceDataComplete]
  | .PutManifest => if env.putManifestOk then [.PutManifestComplete] else [.ErrorEvent]
  | .FetchMeta => if env.updateMetaOk then [.FetchMetaComplete] else [.ErrorEvent]
  | .CheckUpdates =>
    match env.offlineUpdates with
    | none => []
    | some updates => if updates ≠ [] then [.UpdateAvailable] else [.UptaneTimestampUpdated]
  | .StartDownload updates => downloadImages env.imagesHasTarget updates
  | .UptaneInstall _ => [.InstallComplete]

/-! Concrete fixtures used by the witnesses and counterexamples below. -/

/-- Director target assigned to the known ECU `s1` and already installed
there (`installed_images[s1] = fileA`). -/
def tC1 : Target := ⟨"fileA", [("s1", "h1")], "hashA", 0, "OSTREE"⟩

/-- Director target whose ECU map names the unknown serial `a` before the
known serial `b`, and declares the wrong hardware id for `b`. -/
def tC2 : Target := ⟨"fileB", [("a", "x"), ("b", "hwrong")], "hashB", 1, "OSTREE"⟩

/-- Director target naming only the unknown serial `u`. -/
def tU : Target := ⟨"x", [("u", "h")], "hx", 0, "OSTREE"⟩

/-- Director target declaring the wrong hardware id for the known serial
`b`. -/
def tM : Target := ⟨"y", [("b", "hwrong")], "hy", 0, "OSTREE"⟩

/-- Local inventory knowing serial `b` with hardware id `hreal`. -/
def hwB : List (String × String) := [("b", "hreal")]

/-- Installed image `f` recorded for serial `b`. -/
def instB : List (String × String) := [("b", "f")]

/-- Environment for the rollback scenario S4: stored director root version 3
(server still at 3, so the root walk is empty and storage keeps its Targets),
stored director Targets version 7, fetched Targets version 6, every
verification succeeding and nothing expired. -/
def envC4 : Env where
  storedLatestRoot := some ⟨3, "root3"⟩
  storedRole := fun role => if role = "Targets" then some ⟨7, "targets7"⟩ else none
  fetchRoot := fun _ => none
  fetchLatest := fun role =>
    if role = "Root" then some ⟨3, "root3"⟩
    else if role = "Targets" then some ⟨6, "targets6"⟩
    else none
  initRootOk := fun _ => true
  verifyRootOk := fun _ _ => true
  rootExpired := fun _ => false
  verifyRoleOk := fun _ _ _ => true
  roleExpired := fun _ _ => false

/-- Like `envC4` but with the server advertising Root version 2 against a
stored Root at version 1 and serving a verifiable Root: the walk advances
the Root, and its `clearNonRootMeta` deletes the stored Targets version 7
before the Targets block runs. -/
def envC4b : Env where
  storedLatestRoot := some ⟨1, "root1"⟩
  storedRole := fun role => if role = "Targets" then some ⟨7, "targets7"⟩ else none
  fetchRoot := fun v => some ⟨v, "root"⟩
  fetchLatest := fun role =>
    if role = "Root" then some ⟨2, "root2"⟩
    else if role = "Targets" then some ⟨6, "targets6"⟩
    else none
  initRootOk := fun _ => true
  verifyRootOk := fun _ _ => true
  rootExpired := fun _ => false
  verifyRoleOk := fun _ _ _ => true
  roleExpired := fun _ _ => false

/-- Environment in which the server advertises root version 1026 against a
stored root at version 1 and serves a verifiable root at every version: the
walk performs 1025 fetch-and-verify steps. -/
def envC5 : Env where
  storedLatestRoot := some ⟨1, "root1"⟩
  storedRole := fun _ => none
  fetchRoot := fun v => some ⟨v, "root"⟩
  fetchLatest := fun role => if role = "Root" then some ⟨1026, "latest"⟩ else none
  initRootOk := fun _ => true
  verifyRootOk := fun _ _ => true
  rootExpired := fun _ => false
  verifyRoleOk := fun _ _ _ => true
  roleExpired := fun _ _ => false

/-- Environment for the expired-root scenario S7: stored root version 2
expired, server advertising no newer root, stored non-root roles present and
verifiable. -/
def envC8 : Env where
  storedLatestRoot := some ⟨2, "root2"⟩
  storedRole := fun role => some ⟨1, role⟩
  fetchRoot := fun _ => none
  fetchLatest := fun role =>
    if role = "Root" then some ⟨2, "root2"⟩ else some ⟨1, role⟩
  initRootOk := fun _ => true
  verifyRootOk := fun _ _ => true
  rootExpired := fun _ => true
  verifyRoleOk := fun _ _ _ => true
  roleExpired := fun _ _ => false

/-- An OSTree-typed target for the primary. -/
def tOs : Target := ⟨"commitX", [("s1", "h1")], "deadbeef", 0, "OSTREE"⟩

/-- A package driver whose install always succeeds. -/
def driverOk : Target → InstallOutcome := fun _ => ⟨.kOk, "ok"⟩

/-- Engine environment whose offline iteration fails (invalid stored
metadata); the other sub-operations succeed. -/
def engEnvC7 : EngineEnv := ⟨true, true, none, fun _ => true⟩

/-- A non-OSTree (binary) target. -/
def tBin : Target := ⟨"bin", [], "hbin", 4, "BINARY"⟩

/-- A target whose stored hash matches the running system. -/
def t10 : Target := ⟨"f", [], "h", 0, "OSTREE"⟩

/-! Helper lemmas. -/

/-- Splitting `countRootFetches` over an append. -/
theorem countRootFetches_append (a b : List Act) :
    countRootFetches (a ++ b) = countRootFetches a + countRootFetches b := by
  simp [countRootFetches, List.filter_append]

/-- If the ECU entries before `(s, h)` all have a known serial and a
recorded installed image, and `s` is known with a hardware id other than
`h`, the ECU scan reaches `(s, h)` and aborts. -/
theorem scanEcus_abort_of_reached (hw inst : List (String × String)) (f s h h' : String)
    (post : List (String × String)) (hfound : hw.lookup s = some h') (hne : h' ≠ h) :
    ∀ (pre : List (String × String)),
      (∀ p ∈ pre, (hw.lookup p.1).isSome ∧ (inst.lookup p.1).isSome) →
      ∀ (b : Bool), scanEcus hw inst f b (pre ++ (s, h) :: post) = .abortScan := by
  intro pre
  induction pre with
  | nil =>
    intro _ b
    simp [scanEcus, hfound, hne]
  | cons p pre ih =>
    intro hpre b
    obtain ⟨ps, ph⟩ := p
    obtain ⟨hws, hins⟩ := hpre (ps, ph) (by simp)
    obtain ⟨w, hw_eq⟩ := Option.isSome_iff_exists.mp hws
    obtain ⟨img, hin_eq⟩ := Option.isSome_iff_exists.mp hins
    have hpre2 : ∀ q ∈ pre, (hw.lookup q.1).isSome ∧ (inst.lookup q.1).isSome :=
      fun q hq => hpre q (by simp [hq])
    by_cases hwp : w = ph
    · subst hwp
      by_cases himgf : img = f
      · simpa [scanEcus, hw_eq, hin_eq, himgf] using ih hpre2 b
      · simpa [scanEcus, hw_eq, hin_eq, himgf] using ih hpre2 true
    · simp [scanEcus, hw_eq, hwp]

/-- A target whose ECU scan aborts makes the whole selection fail. -/
theorem getNewTargets_none_of_abort (hw inst : List (String × String)) :
    ∀ (ts : List Target) (t : Target), t ∈ ts →
      scanEcus hw inst t.filename true t.ecus = .abortScan →
      getNewTargets hw inst ts = none := by
  intro ts
  induction ts with
  | nil => intro t ht; cases ht
  | cons a rest ih =>
    intro t ht habort
    rcases List.mem_cons.mp ht with rfl | hmem
    · simp [getNewTargets, habort]
    · have hrest := ih t hmem habort
      cases hscan : scanEcus hw inst a.filename true a.ecus with
      | abortScan => simp [getNewTargets, hscan]
      | skipScan => simp [getNewTargets, hscan, hrest]
      | doneScan b => simp [getNewTargets, hscan, hrest]

/-- When every known serial in the ECU list carries the locally known
hardware id, the ECU scan never aborts. -/
theorem scanEcus_ne_abort (hw inst : List (String × String)) (f : String) :
    ∀ (ecus : List (String × String)),
      (∀ p ∈ ecus, ∀ h', hw.lookup p.1 = some h' → h' = p.2) →
      ∀ (b : Bool), scanEcus hw inst f b ecus ≠ .abortScan := by
  intro ecus
  induction ecus with
  | nil => intro _ b; simp [scanEcus]
  | cons p rest ih =>
    intro hno b
    obtain ⟨ps, ph⟩ := p
    have hrest : ∀ q ∈ rest, ∀ h', hw.lookup q.1 = some h' → h' = q.2 :=
      fun q hq => hno q (by simp [hq])
    cases hlook : hw.lookup ps with
    | none => simp [scanEcus, hlook]
    | some w =>
      have hwp : w = ph := hno (ps, ph) (by simp) w hlook
      subst hwp
      cases hinst : inst.lookup ps with
      | none => simp [scanEcus, hlook, hinst]
      | some img =>
        by_cases himgf : img = f
        · simpa [scanEcus, hlook, hinst, himgf] using ih hrest b
        · simpa [scanEcus, hlook, hinst, himgf] using ih hrest true

/-- When every known serial carries the right hardware id and some serial in
the list is unknown, the ECU scan exits through the `is_new = false; break`
path. -/
theorem scanEcus_skip_of_unknown (hw inst : List (String × String)) (f : String) :
    ∀ (ecus : List (String × String)),
      (∀ p ∈ ecus, ∀ h', hw.lookup p.1 = some h' → h' = p.2) →
      (∃ p ∈ ecus, hw.lookup p.1 = none) →
      ∀ (b : Bool), scanEcus hw inst f b ecus = .skipScan := by
  intro ecus
  induction ecus with
  | nil => intro _ hex; simp at hex
  | cons p rest ih =>
    intro hno hex b
    obtain ⟨ps, ph⟩ := p
    have hrest : ∀ q ∈ rest, ∀ h', hw.lookup q.1 = some h' → h' = q.2 :=
      fun q hq => hno q (by simp [hq])
    cases hlook : hw.lookup ps with
    | none => simp [scanEcus, hlook]
    | some w =>
      have hwp : w = ph := hno (ps, ph) (by simp) w hlook
      subst hwp
      have hex2 : ∃ p ∈ rest, hw.lookup p.1 = none := by
        rcases hex with ⟨q, hq, hqnone⟩
        rcases List.mem_cons.mp hq with rfl | hqmem
        · rw [hlook] at hqnone; cases hqnone
        · exact ⟨q, hqmem, hqnone⟩
      cases hinst : inst.lookup ps with
      | none => simp [scanEcus, hlook, hinst]
      | some img =>
        by_cases himgf : img = f
        · simpa [scanEcus, hlook, hinst, himgf] using ih hrest hex2 b
        · simpa [scanEcus, hlook, hinst, himgf] using ih hrest hex2 true

/-! Claim theorems. -/

/-- C1.  The claim says a director target whose filename equals the
currently installed filename on all of its target ECUs is omitted from
`getNewTargets`' output as already installed.  The code initialises
`is_new` to `true` (sotauptaneclient.cc:569) and the matching-filename
branch merely `continue`s, so such a target is still returned: with serial
`s1` known, its hardware id matching and `fileA` recorded as installed,
the target `fileA` for `s1` comes back as a new target. -/
theorem getNewTargets_returns_already_installed :
    getNewTargets [("s1", "h1")] [("s1", "fileA")] [tC1] = some [tC1] := by decide

/-- C2 counterexample.  The claim says any director targets list containing
a target that names a known ECU serial with a mismatching hardware id makes
the selection abort.  Target `tC2` names the known serial `b` with the
wrong hardware id `hwrong` (local inventory says `hreal`), yet the scan
breaks at the earlier unknown serial `a` and the selection succeeds with
`some []` instead of aborting. -/
theorem getNewTargets_mismatch_shadowed_no_abort :
    List.lookup "b" hwB = some "hreal" ∧
    List.lookup "b" tC2.ecus = some "hwrong" ∧
    getNewTargets hwB instB [tC2] = some [] := by decide

/-- C2 amended.  If some target's ECU map contains an entry `(s, h)` whose
serial is known locally with a hardware id other than `h`, and every entry
before it (in iteration order) has a known serial and a recorded installed
image — so the scan reaches the mismatch — then the selection aborts:
`getNewTargets` returns failure and no target list is produced. -/
theorem getNewTargets_abort_on_reached_hw_mismatch (hw inst : List (String × String))
    (ts : List Target) (t : Target) (pre post : List (String × String)) (s h h' : String)
    (hmem : t ∈ ts) (hecus : t.ecus = pre ++ (s, h) :: post)
    (hfound : hw.lookup s = some h') (hne : h' ≠ h)
    (hpre : ∀ p ∈ pre, (hw.lookup p.1).isSome ∧ (inst.lookup p.1).isSome) :
    getNewTargets hw inst ts = none := by
  apply getNewTargets_none_of_abort hw inst ts t hmem
  rw [hecus]
  exact scanEcus_abort_of_reached hw inst t.filename s h h' post hfound hne pre hpre true

/-- C2 witness: the mismatching entry of `tM` is first, so the abort fires. -/
theorem getNewTargets_abort_on_reached_hw_mismatch_witness :
    getNewTargets hwB instB [tM] = none :=
  getNewTargets_abort_on_reached_hw_mismatch hwB instB [tM] tM [] [] "b" "hwrong" "hreal"
    (by simp) rfl (by decide) (by decide) (by simp)

/-- C3 counterexample.  The claim says a targets list containing a target
naming an unknown ECU serial is processed by skipping only that target and
the selection still succeeds.  With `tU` naming the unknown serial `u` and
`tM` declaring a wrong hardware id for the known serial `b`, the selection
aborts entirely instead. -/
theorem getNewTargets_unknown_serial_not_isolated :
    List.lookup "u" hwB = none ∧
    getNewTargets hwB instB [tU, tM] = none := by decide

/-- C3 amended.  Provided no target declares a hardware id differing from
the locally known one for a known serial (so the scan never aborts),
selection succeeds and returns exactly the targets kept by the per-target
scan, in director order; every target naming an unknown ECU serial is
skipped. -/
theorem getNewTargets_skips_unknown_serial_targets (hw inst : List (String × String))
    (ts : List Target)
    (hno : ∀ t ∈ ts, ∀ p ∈ t.ecus, ∀ h', hw.lookup p.1 = some h' → h' = p.2) :
    getNewTargets hw inst ts = some (ts.filter (targetKept hw inst)) ∧
    ∀ t ∈ ts, (∃ p ∈ t.ecus, hw.lookup p.1 = none) → targetKept hw inst t = false := by
  constructor
  · induction ts with
    | nil => simp [getNewTargets]
    | cons a rest ih =>
      have hno_a : ∀ p ∈ a.ecus, ∀ h', hw.lookup p.1 = some h' → h' = p.2 :=
        fun p hp => hno a (by simp) p hp
      have hno_rest : ∀ t ∈ rest, ∀ p ∈ t.ecus, ∀ h', hw.lookup p.1 = some h' → h' = p.2 :=
        fun t ht => hno t (by simp [ht])
      have hrest := ih hno_rest
      cases hscan : scanEcus hw inst a.filename true a.ecus with
      | abortScan => exact absurd hscan (scanEcus_ne_abort hw inst a.filename a.ecus hno_a true)
      | skipScan =>
        have hkept : targetKept hw inst a = false := by simp [targetKept, hscan]
        simp [getNewTargets, hscan, hrest, List.filter_cons, hkept]
      | doneScan b =>
        have hkept : targetKept hw inst a = b := by simp [targetKept, hscan]
        cases b with
        | true => simp [getNewTargets, hscan, hrest, List.filter_cons, hkept]
        | false => simp [getNewTargets, hscan, hrest, List.filter_cons, hkept]
  · intro t ht hex
    have hno_t : ∀ p ∈ t.ecus, ∀ h', hw.lookup p.1 = some h' → h' = p.2 :=
      fun p hp => hno t ht p hp
    simp [targetKept, scanEcus_skip_of_unknown hw inst t.filename t.ecus hno_t hex true]

/-- C3 witness: the unknown-serial target `tU` is skipped and the selection
succeeds. -/
theorem getNewTargets_skips_unknown_serial_targets_witness :
    getNewTargets hwB instB [tU] = some (List.filter (targetKept hwB instB) [tU]) ∧
    targetKept hwB instB tU = false := by
  have h := getNewTargets_skips_unknown_serial_targets hwB instB [tU] (by
    intro t ht p hp h' hl
    simp [hwB] at ht hl ⊢
    subst ht
    simp [tU] at hp
    subst hp
    simp [List.lookup] at hl)
  exact ⟨h.1, h.2 tU (by simp) ⟨("u", "h"), by simp [tU], by decide⟩⟩

/-- C4 counterexample.  The claim quantifies over every state with a
Director Targets at version `v` stored, but when the server advertises a
Root newer than the stored one, the root walk's `clearNonRootMeta`
(sotauptaneclient.cc:240) deletes the stored Targets before the Targets
block runs: against `envC4b` (stored Targets version 7, Root advancing from
1 to 2, fetched Targets version 6) the update succeeds and stores the
lower-version document, refuting the claimed rejection and
storage-unchanged behaviour. -/
theorem updateDirectorMeta_root_advance_accepts_lower_targets :
    envC4b.storedRole "Targets" = some ⟨7, "targets7"⟩ ∧
    (updateDirectorMeta envC4b).err = none ∧
    (updateDirectorMeta envC4b).stored "Targets" = some ⟨6, "targets6"⟩ ∧
    Act.storeRoleAct "Targets" ∈ (updateDirectorMeta envC4b).acts := by
  refine ⟨rfl, rfl, rfl, ?_⟩
  decide

/-- C4 amended.  Rollback rejection holds whenever the Root does not
advance during the iteration: when the Director metadata update reaches its
Targets step with a Targets document of version `v` still stored (the server
advertises no newer root, so the walk is empty and the stored non-root
metadata survives `clearNonRootMeta`) and the fetched Targets has a version
below `v`, the update fails, the stored Targets is unchanged and no Targets
store is performed. -/
theorem updateDirectorMeta_rejects_lower_targets_version (env : Env) (r latest d ft : MetaDoc)
    (h1 : env.storedLatestRoot = some r) (h2 : env.initRootOk r = true)
    (h3 : env.fetchLatest "Root" = some latest) (h4 : latest.version ≤ r.version)
    (h5 : env.rootExpired r.version = false)
    (h6 : env.storedRole "Targets" = some d)
    (h7 : env.fetchLatest "Targets" = some ft) (h8 : ft.version < d.version) :
    (updateDirectorMeta env).err ≠ none ∧
    (updateDirectorMeta env).stored "Targets" = some d ∧
    Act.storeRoleAct "Targets" ∉ (updateDirectorMeta env).acts := by
  have hfuel : (latest.version - r.version).toNat = 0 := by omega
  have hgt : d.version > ft.version := h8
  by_cases hv : env.verifyRoleOk r.version "Targets" ft = true
  · have hred : updateDirectorMeta env =
      ⟨some (.versionRollback "Targets"), r.version, env.storedRole,
        [Act.initRootAct, Act.fetchLatestAct "Root", Act.fetchLatestAct "Targets",
          Act.loadRoleAct "Targets", Act.verifyRoleAct "Targets"]⟩ := by
      simp [updateDirectorMeta, h1, h2, udmAfterInit, h3, hfuel, rootWalk, h5,
        nonRootBlock, h7, h6, hv, hgt]
    rw [hred]
    refine ⟨by simp, h6, by simp⟩
  · have hred : updateDirectorMeta env =
      ⟨some (.verifyRoleFail "Targets"), r.version, env.storedRole,
        [Act.initRootAct, Act.fetchLatestAct "Root", Act.fetchLatestAct "Targets",
          Act.loadRoleAct "Targets", Act.verifyRoleAct "Targets"]⟩ := by
      simp [updateDirectorMeta, h1, h2, udmAfterInit, h3, hfuel, rootWalk, h5,
        nonRootBlock, h7, h6, hv]
    rw [hred]
    refine ⟨by simp, h6, by simp⟩

/-- C4 witness, scenario S4: stored Targets version 7, fetched version 6. -/
theorem updateDirectorMeta_rejects_lower_targets_version_witness :
    (updateDirectorMeta envC4).err ≠ none ∧
    (updateDirectorMeta envC4).stored "Targets" = some ⟨7, "targets7"⟩ ∧
    Act.storeRoleAct "Targets" ∉ (updateDirectorMeta envC4).acts :=
  updateDirectorMeta_rejects_lower_targets_version envC4
    ⟨3, "root3"⟩ ⟨3, "root3"⟩ ⟨7, "targets7"⟩ ⟨6, "targets6"⟩
    rfl rfl rfl (by decide) rfl rfl rfl (by decide)

/-- Against `envC5` every root fetch and every root verification succeeds,
so the walk runs its full fuel and performs exactly one root fetch per
step. -/
theorem rootWalk_envC5_success (n : Nat) :
    ∀ (version rootVer : Int) (st : String → Option MetaDoc) (acts : List Act),
      (rootWalk envC5 n version rootVer st acts).1 = none ∧
      countRootFetches (rootWalk envC5 n version rootVer st acts).2.2.2 =
        countRootFetches acts + n := by
  induction n with
  | zero => intro version rootVer st acts; simp [rootWalk]
  | succ n ih =>
    intro version rootVer st acts
    have hstep := ih (version + 1) ((⟨version, "root"⟩ : MetaDoc)).version (fun _ => none)
      (acts ++ [.fetchRootAct version, .verifyRootAct version, .storeRootAct version,
        .clearNonRootAct])
    refine ⟨?_, ?_⟩
    · simpa [rootWalk, envC5] using hstep.1
    · have := hstep.2
      rw [countRootFetches_append] at this
      simp only [rootWalk, envC5] at this ⊢
      simp only [countRootFetches, List.filter] at this ⊢
      simp at this ⊢
      omega

/-- C5 counterexample.  The claim says the root walk never exceeds a small
constant such as 1024 steps regardless of the advertised version.  With a
stored root at version 1 and a server advertising version 1026 and serving
a verifiable root at every version, one `updateDirectorMeta` iteration
performs 1025 root fetch-and-verify steps. -/
theorem udm_acts_after_clean_walk (env : Env) (r latest : MetaDoc)
    (hsl : env.storedLatestRoot = some r) (hio : env.initRootOk r = true)
    (hfl : env.fetchLatest "Root" = some latest)
    (hre : ∀ v, env.rootExpired v = false) (hft : env.fetchLatest "Targets" = none)
    (rv : Int) (st2 : String → Option MetaDoc) (a2 : List Act)
    (hww : rootWalk env (latest.version - r.version).toNat (r.version + 1) r.version
        env.storedRole ([Act.initRootAct] ++ [Act.fetchLatestAct "Root"]) =
        (none, rv, st2, a2)) :
    (updateDirectorMeta env).acts = a2 ++ [Act.fetchLatestAct "Targets"] := by
  simp only [updateDirectorMeta, hsl, hio, if_true, udmAfterInit, hfl, hww]
  simp [hre, nonRootBlock, hft]

theorem rootWalk_exceeds_1024 :
    1024 < countRootFetches (updateDirectorMeta envC5).acts := by
  rcases hww : rootWalk envC5 1025 2 1 envC5.storedRole
      [Act.initRootAct, Act.fetchLatestAct "Root"] with ⟨e, rv, st2, a2⟩
  have hh := rootWalk_envC5_success 1025 2 1 envC5.storedRole
    [Act.initRootAct, Act.fetchLatestAct "Root"]
  rw [hww] at hh
  obtain ⟨he, hcount⟩ := hh
  simp at he
  subst he
  have hww2 : rootWalk envC5
      (((⟨1026, "latest"⟩ : MetaDoc)).version - ((⟨1, "root1"⟩ : MetaDoc)).version).toNat
      (((⟨1, "root1"⟩ : MetaDoc)).version + 1) ((⟨1, "root1"⟩ : MetaDoc)).version
      envC5.storedRole ([Act.initRootAct] ++ [Act.fetchLatestAct "Root"]) =
      (none, rv, st2, a2) := hww
  have hacts := udm_acts_after_clean_walk envC5 ⟨1, "root1"⟩ ⟨1026, "latest"⟩
    rfl rfl rfl (fun _ => rfl) rfl rv st2 a2 hww2
  rw [hacts, countRootFetches_append]
  simp only [countRootFetches, List.filter] at hcount ⊢
  simp at hcount ⊢
  omega

/-- C5 amended.  The root walk of one metadata iteration is bounded only by
its fuel — the gap between the advertised latest root version and the
current one — not by any fixed constant: a walk of fuel `n` adds at most
`n` root fetch-and-verify steps, and (by the counterexample) a server
advertising a large enough version makes the walk exceed any fixed
constant. -/
theorem rootWalk_steps_bounded_by_advertised_gap (env : Env) (n : Nat) :
    ∀ (version rootVer : Int) (st : String → Option MetaDoc) (acts : List Act),
      countRootFetches (rootWalk env n version rootVer st acts).2.2.2 ≤
        countRootFetches acts + n := by
  induction n with
  | zero => intro version rootVer st acts; simp [rootWalk]
  | succ n ih =>
    intro version rootVer st acts
    cases hf : env.fetchRoot version with
    | none =>
      simp only [rootWalk, hf, countRootFetches_append]
      simp [countRootFetches, List.filter]
    | some d =>
      by_cases hv : env.verifyRootOk rootVer d = true
      · have hstep := ih (version + 1) d.version (fun _ => none)
          (acts ++ [.fetchRootAct version, .verifyRootAct version, .storeRootAct version,
            .clearNonRootAct])
        rw [countRootFetches_append] at hstep
        simp only [rootWalk, hf, hv, if_true]
        refine le_trans hstep ?_
        simp [countRootFetches, List.filter]
        omega
      · simp only [rootWalk, hf, hv, Bool.false_eq_true, if_false, countRootFetches_append]
        simp [countRootFetches, List.filter]

/-- C8.  Expired stored Root, scenario S7: when the stored latest Root
parses but is expired, the offline checks of both repositories fail with
`ExpiredMetadata(·, "root")` without verifying any dependent role, and the
online updates do the same whenever the server advertises no newer Root
(so the expired stored Root is still current at check time). -/
theorem expired_root_aborts_before_dependent_roles (env : Env) (r : MetaDoc)
    (h1 : env.storedLatestRoot = some r) (h2 : env.initRootOk r = true)
    (h3 : env.rootExpired r.version = true) :
    ((checkDirectorMetaOffline env).err = some (.expiredMetadata "director" "root") ∧
      ∀ role, Act.verifyRoleAct role ∉ (checkDirectorMetaOffline env).acts) ∧
    ((checkImagesMetaOffline env).err = some (.expiredMetadata "repo" "root") ∧
      ∀ role, Act.verifyRoleAct role ∉ (checkImagesMetaOffline env).acts) ∧
    (∀ latest, env.fetchLatest "Root" = some latest → latest.version ≤ r.version →
      ((updateDirectorMeta env).err = some (.expiredMetadata "director" "root") ∧
        ∀ role, Act.verifyRoleAct role ∉ (updateDirectorMeta env).acts) ∧
      ((updateImagesMeta env).err = some (.expiredMetadata "repo" "root") ∧
        ∀ role, Act.verifyRoleAct role ∉ (updateImagesMeta env).acts)) := by
  refine ⟨⟨?_, ?_⟩, ⟨?_, ?_⟩, ?_⟩
  · simp [checkDirectorMetaOffline, h1, h2, h3]
  · intro role; simp [checkDirectorMetaOffline, h1, h2, h3]
  · simp [checkImagesMetaOffline, h1, h2, h3]
  · intro role; simp [checkImagesMetaOffline, h1, h2, h3]
  · intro latest hlat hle
    have hfuel : (latest.version - r.version).toNat = 0 := by omega
    refine ⟨⟨?_, ?_⟩, ⟨?_, ?_⟩⟩
    · simp [updateDirectorMeta, h1, h2, udmAfterInit, hlat, hfuel, rootWalk, h3]
    · intro role; simp [updateDirectorMeta, h1, h2, udmAfterInit, hlat, hfuel, rootWalk, h3]
    · simp [updateImagesMeta, h1, h2, uimAfterInit, hlat, hfuel, rootWalk, h3]
    · intro role; simp [updateImagesMeta, h1, h2, uimAfterInit, hlat, hfuel, rootWalk, h3]

/-- C8 witness at the concrete environment `envC8`. -/
theorem expired_root_aborts_before_dependent_roles_witness :
    ((checkDirectorMetaOffline envC8).err = some (.expiredMetadata "director" "root") ∧
      ∀ role, Act.verifyRoleAct role ∉ (checkDirectorMetaOffline envC8).acts) ∧
    ((checkImagesMetaOffline envC8).err = some (.expiredMetadata "repo" "root") ∧
      ∀ role, Act.verifyRoleAct role ∉ (checkImagesMetaOffline envC8).acts) ∧
    (∀ latest, envC8.fetchLatest "Root" = some latest →
      latest.version ≤ (⟨2, "root2"⟩ : MetaDoc).version →
      ((updateDirectorMeta envC8).err = some (.expiredMetadata "director" "root") ∧
        ∀ role, Act.verifyRoleAct role ∉ (updateDirectorMeta envC8).acts) ∧
      ((updateImagesMeta envC8).err = some (.expiredMetadata "repo" "root") ∧
        ∀ role, Act.verifyRoleAct role ∉ (updateImagesMeta envC8).acts)) :=
  expired_root_aborts_before_dependent_roles envC8 ⟨2, "root2"⟩ rfl rfl rfl

/-- C6 counterexample.  The claim says a type disagreement in either
direction — non-OSTree target on an OSTree driver, or OSTree target on a
non-OSTree driver — yields `ValidationFailed` without invoking the driver.
The guard at sotauptaneclient.cc:76 tests only
`!target.IsOstree() && config.pacman.type == kOstree`: the OSTree target
`tOs` on a non-OSTree (`kNone`) driver falls through to the install branch,
the driver is invoked and the stored result is its outcome, not
`ValidationFailed`. -/
theorem packageInstall_ostree_on_non_ostree_driver_installs :
    tOs.IsOstree = true ∧
    PackageInstallSetResult .kNone driverOk tOs =
      (⟨"commitX", .kOk, "ok"⟩, true, true) := by decide

/-- C6 amended.  Only one direction is guarded: a non-OSTree target on an
OSTree-typed driver is failed with `ValidationFailed` and the driver's
install is never invoked (an OSTree target on a non-OSTree driver proceeds
to installation). -/
theorem packageInstall_non_ostree_on_ostree_validation_failed
    (pacman : PackageManagerKind) (driver : Target → InstallOutcome) (t : Target)
    (hnotOs : t.IsOstree = false) (hpac : pacman = .kOstree) :
    PackageInstallSetResult pacman driver t =
      (⟨t.filename, .kValidationFailed,
        "Cannot install a non-OSTree package on an OSTree system"⟩, false, false) := by
  subst hpac
  simp [PackageInstallSetResult, hnotOs, OperationResult.fromOutcome]

/-- C6 witness: the binary target on the OSTree driver. -/
theorem packageInstall_non_ostree_on_ostree_validation_failed_witness :
    PackageInstallSetResult .kOstree driverOk tBin =
      (⟨tBin.filename, .kValidationFailed,
        "Cannot install a non-OSTree package on an OSTree system"⟩, false, false) :=
  packageInstall_non_ostree_on_ostree_validation_failed .kOstree driverOk tBin (by decide) rfl

/-- C7 counterexample.  The claim says every processed command emits exactly
one terminal (`*Complete` or `Error`) event.  When the offline iteration
fails (invalid stored metadata), the `CheckUpdates` branch only logs
(sotauptaneclient.cc:725) and emits no event at all. -/
theorem checkUpdates_failure_emits_no_event :
    processCommand engEnvC7 .CheckUpdates = [] ∧
    ((processCommand engEnvC7 .CheckUpdates).filter isTerminal).length = 0 := by decide

/-- C7 amended.  Every command emits at most one event;
`SendDeviceData`, `PutManifest`, `FetchMeta` and `UptaneInstall` emit
exactly one terminal event on both success and failure paths, while
`CheckUpdates` and `StartDownload` may emit a non-terminal event
(`UpdateAvailable`, `UptaneTimestampUpdated`) or none at all
(`CheckUpdates` when the offline iteration fails, `StartDownload` when only
a subset of the targets is found in the images metadata). -/
theorem processCommand_event_counts (env : EngineEnv) (cmd : Command) :
    (processCommand env cmd).length ≤ 1 ∧
    ((cmd = .SendDeviceData ∨ cmd = .PutManifest ∨ cmd = .FetchMeta ∨
        (∃ p, cmd = .UptaneInstall p)) →
      ((processCommand env cmd).filter isTerminal).length = 1) := by
  cases cmd with
  | SendDeviceData => simp [processCommand, isTerminal]
  | PutManifest =>
    by_cases h : env.putManifestOk = true <;> simp [processCommand, isTerminal, h]
  | FetchMeta =>
    by_cases h : env.updateMetaOk = true <;> simp [processCommand, isTerminal, h]
  | CheckUpdates =>
    refine ⟨?_, by simp⟩
    cases h : env.offlineUpdates with
    | none => simp [processCommand, h]
    | some updates =>
      by_cases hu : updates = [] <;> simp [processCommand, h, hu]
  | StartDownload updates =>
    refine ⟨?_, by simp⟩
    by_cases hu : updates = []
    · simp [processCommand, downloadImages, hu]
    · by_cases hlen : updates.length = (updates.filter env.imagesHasTarget).length <;>
        simp [processCommand, downloadImages, hu, hlen]
  | UptaneInstall packages => simp [processCommand, isTerminal]

/-- C7 witness: `FetchMeta` emits exactly one terminal event. -/
theorem processCommand_event_counts_witness :
    ((processCommand engEnvC7 .FetchMeta).filter isTerminal).length = 1 :=
  (processCommand_event_counts engEnvC7 .FetchMeta).2 (Or.inr (Or.inr (Or.inl rfl)))

/-- C9.  After a detected reboot, `finalizeInstall` returns `Ok` with
"Successfully booted on new version" when the current deployment hash
equals the expected target's SHA-256 hash and
`InstallFailed("Wrong version booted")` otherwise, and clears the reboot
flag in both cases. -/
theorem finalizeInstall_after_reboot (currentHash : String) (target : Target) :
    (finalizeInstall true currentHash target).1 =
      (if currentHash = target.sha256 then ⟨.kOk, "Successfully booted on new version"⟩
        else ⟨ResultCode.kInstallFailed, "Wrong version booted"⟩) ∧
    (finalizeInstall true currentHash target).2 = true := by
  by_cases h : currentHash = target.sha256 <;> simp [finalizeInstall, h]

/-- C10.  `getCurrent` always returns a target whose SHA-256 hash equals
the hash reported by `getCurrentHash`: the stored installed version when
its hash matches, otherwise the most recent matching entry of the
installation log, otherwise the synthesized target named "unknown" of type
OSTREE carrying exactly the current hash. -/
theorem getCurrent_hash_agrees (currentHash : String) (storedCurrent : Option Target)
    (log : List Target) :
    (getCurrent currentHash storedCurrent log).sha256 = currentHash ∧
    (∀ cv, storedCurrent = some cv → cv.sha256 = currentHash →
      getCurrent currentHash storedCurrent log = cv) ∧
    ((∀ cv, storedCurrent = some cv → cv.sha256 ≠ currentHash) →
      ∀ t, List.find? (fun u => u.sha256 = currentHash) log.reverse = some t →
        getCurrent currentHash storedCurrent log = t) ∧
    ((∀ cv, storedCurrent = some cv → cv.sha256 ≠ currentHash) →
      List.find? (fun u => u.sha256 = currentHash) log.reverse = none →
      getCurrent currentHash storedCurrent log = ⟨"unknown", [], currentHash, 0, "OSTREE"⟩) := by
  refine ⟨?_, ?_, ?_, ?_⟩
  · cases storedCurrent with
    | none =>
      cases hf : List.find? (fun u => u.sha256 = currentHash) log.reverse with
      | none => simp [getCurrent, hf]
      | some t =>
        have := List.find?_some hf
        simp [getCurrent, hf, of_decide_eq_true this]
    | some cv =>
      by_cases hcv : cv.sha256 = currentHash
      · simp [getCurrent, hcv]
      · cases hf : List.find? (fun u => u.sha256 = currentHash) log.reverse with
        | none => simp [getCurrent, hcv, hf]
        | some t =>
          have := List.find?_some hf
          simp [getCurrent, hcv, hf, of_decide_eq_true this]
  · intro cv hcv hhash
    subst hcv
    simp [getCurrent, hhash]
  · intro hnot t hf
    cases storedCurrent with
    | none => simp [getCurrent, hf]
    | some cv => simp [getCurrent, hnot cv rfl, hf]
  · intro hnot hf
    cases storedCurrent with
    | none => simp [getCurrent, hf]
    | some cv => simp [getCurrent, hnot cv rfl, hf]

/-- C10 witness: the stored installed version whose hash matches is
returned as is. -/
theorem getCurrent_hash_agrees_witness :
    getCurrent "h" (some t10) [] = t10 :=
  (getCurrent_hash_agrees "h" (some t10) []).2.1 t10 rfl rfl

end Aktualizr
